import Mathlib

/-!
Shallow embedding of the websocket-push-system repository.

Two server variants are modelled:
* the queued variant `src/system-with-MessageQ/backend/src/server.js`
  (definitions suffixed `Q`), and
* the direct variant `src/unnamed/part_003` (suffixed `3`).
The browser client `WSClient` from `src/unnamed/part_000` and the two task
processors (`src/unnamed/part_002` batching variant, and the queued
`src/system-with-MessageQ/backend/src/task-processor.js`) are modelled as well.

Modelling conventions:
* JS `Map` objects are modelled as functions into `Option` (an absent key is
  `none`); `Set` objects are duplicate-free lists built by an `add` that
  skips elements already present.
* JS string truthiness (`if (!token)`, `if (!userId)`, ...) is modelled by
  `truthy`, which is `false` exactly on `none` and `some ""`.
* `ws.send` throwing is an environmental condition; it is modelled by the
  per-connection flag `sendFails`, and the `try/catch` around the write is
  modelled by `sendToClient` returning `false` in that case (so the model is
  total, mirroring that the JS function never lets the exception escape).
* Timestamps (`Date.now()`) are `Int` values supplied as parameters.
-/

/-- Decoded JWT payload, as consumed by `_handleAuth`: only the `userId` and
`sub` fields are read; a missing field is `none`. -/
structure JwtPayload where
  userId : Option String
  sub : Option String
deriving DecidableEq

/-- JS truthiness of an optional string: `undefined` and `""` are falsy. -/
def truthy : Option String → Bool
  | some s => !s.isEmpty
  | none => false

/-- JS `a || b` on two optional string fields (`decoded.userId || decoded.sub`). -/
def jsOr (a b : Option String) : Option String :=
  if truthy a then a else b

/-- Inbound frames after JSON parsing, keyed by the `type` discriminator.
Fields not read by any handler (e.g. `dataType` of `request_data`) are
omitted. -/
inductive InMsg
  | auth (token : Option String)
  | ping (timestamp : Int)
  | pong (timestamp echo : Int)
  | requestData (requestId : String)
  | unknown (t : String)
deriving DecidableEq

/-- A raw frame as it arrives on the wire: either invalid JSON or a parsed
message. -/
inductive Frame
  | malformed
  | parsed (m : InMsg)
deriving DecidableEq

/-- Server-to-client frames. `taskId` (a fresh uuid) is omitted from
`request_accepted`; the `data` push payload is not needed by any claim. -/
inductive OutMsg
  | welcome (clientId : String)
  | authSuccess (userId : Option String)
  | authFailure (message : String)
  | pongMsg (timestamp echo : Int)
  | pingMsg (timestamp : Int)
  | requestAccepted (requestId : String)
  | errorMsg (requestId : Option String) (message : String)
deriving DecidableEq

/-- Per-connection server-side state (`clientState` in both server variants).
`wsOpen` models `ws.readyState === WebSocket.OPEN`; `sendFails` models
whether a `ws.send` on this connection would currently throw. -/
structure CState where
  clientId : String
  userId : Option String
  authenticated : Bool
  lastHeartbeat : Int
  wsOpen : Bool
  sendFails : Bool
deriving DecidableEq

/-- Point update of a `Map` modelled as a function into `Option`. -/
def mapUpdate {β : Type} (m : String → Option β) (k : String) (v : Option β) :
    String → Option β :=
  fun k' => if k' = k then v else m k'

/-- `_sendToClient` / `sendToClient`: write succeeds iff the socket is open
and the send does not throw; the `catch` turns a throwing send into a
`false` result, so the function itself never throws. -/
def sendToClient (cs : CState) : Bool :=
  cs.wsOpen && !cs.sendFails

/-! ## Queued variant (`src/system-with-MessageQ/backend/src/server.js`) -/

/-- Whole-server state of the queued variant: `this.clients`
(clientId to clientState), `this.userConnections` (userId to set of
clientIds) and the message-queue connection flag. -/
structure SState where
  clients : String → Option CState
  userConnections : String → Option (List String)
  mqConnected : Bool

/-- The set of connection ids registered for a user (an absent bucket reads
as the empty set). -/
def bucketOf (s : SState) (u : String) : List String :=
  (s.userConnections u).getD []

/-- `this.userConnections`: ensure the bucket exists, then `Set.add` the
connection id (no duplicates). -/
def addToBucket (uc : String → Option (List String)) (u cid : String) :
    String → Option (List String) :=
  fun u' =>
    if u' = u then
      let l := (uc u).getD []
      some (if cid ∈ l then l else l ++ [cid])
    else uc u'

/-- `_sendToUser(userId, data)` of the queued variant: `0` when the user has
no bucket or an empty bucket; otherwise one write attempt per connection id,
counting ids whose clientState exists and whose write succeeded. -/
def sendToUserQ (s : SState) (u : String) : Nat :=
  match s.userConnections u with
  | none => 0
  | some l =>
    if l.isEmpty then 0
    else
      (l.filter (fun cid =>
        match s.clients cid with
        | some cs => sendToClient cs
        | none => false)).length

/-- The per-connection write outcome `_sendToUser` tests for a connection id
of the queued variant (`clientState && this._sendToClient(clientState, data)`). -/
def writeOkQ (s : SState) (cid : String) : Bool :=
  match s.clients cid with
  | some cs => sendToClient cs
  | none => false

/-- `_handleAuth(message, clientState)` of the queued variant. `cs` is the
clientState after the `lastHeartbeat` refresh done by `_handleMessage`. -/
def handleAuthQ (verify : String → Option JwtPayload) (tok : Option String)
    (cs : CState) (s : SState) : SState × List OutMsg :=
  if truthy tok = false then
    (s, [.authFailure "No authentication token provided"])
  else
    match verify (tok.getD "") with
    | none => (s, [.authFailure "Invalid authentication token"])
    | some decoded =>
      let userId := jsOr decoded.userId decoded.sub
      if truthy userId = false then
        (s, [.authFailure "Invalid token: no user ID"])
      else
        let u := userId.getD ""
        let cs' := { cs with userId := userId, authenticated := true }
        ({ s with
            clients := mapUpdate s.clients cs.clientId (some cs'),
            userConnections := addToBucket s.userConnections u cs.clientId },
         [.authSuccess userId])

/-- `_handleMessage(message, clientState)` of the queued variant. A malformed
frame is answered before the `lastHeartbeat` refresh; every parsed frame
refreshes `lastHeartbeat` first and is then dispatched on its `type`
(`pong` and unknown types fall into the logging-only `default` case; the
queue publish of `request_data` is modelled as succeeding immediately). -/
def handleMessageQ (verify : String → Option JwtPayload) (now : Int)
    (s : SState) (cid : String) (fr : Frame) : SState × List OutMsg :=
  match s.clients cid with
  | none => (s, [])
  | some cs0 =>
    match fr with
    | .malformed => (s, [.errorMsg none "Invalid JSON message"])
    | .parsed m =>
      let cs := { cs0 with lastHeartbeat := now }
      let s1 := { s with clients := mapUpdate s.clients cs.clientId (some cs) }
      match m with
      | .auth tok => handleAuthQ verify tok cs s1
      | .ping ts => (s1, [.pongMsg now ts])
      | .requestData rid =>
        if !cs.authenticated then
          (s1, [.errorMsg none "Authentication required"])
        else if s1.mqConnected then
          (s1, [.requestAccepted rid])
        else
          (s1, [.errorMsg (some rid) "Server error: Message queue not connected"])
      | .pong _ _ => (s1, [])
      | .unknown _ => (s1, [])

/-- The `ws.on('close')` handler of the queued variant: remove the connection
from its user's bucket (dropping an emptied bucket), then drop the
clientState. -/
def handleCloseQ (cid : String) (s : SState) : SState :=
  match s.clients cid with
  | none => s
  | some cs =>
    let uc :=
      if truthy cs.userId then
        match s.userConnections (cs.userId.getD "") with
        | some l =>
          let l' := l.erase cid
          mapUpdate s.userConnections (cs.userId.getD "")
            (if l'.isEmpty then none else some l')
        | none => s.userConnections
      else s.userConnections
    { s with clients := mapUpdate s.clients cid none, userConnections := uc }

/-- `config.ws.heartbeatInterval` of the queued variant. -/
def heartbeatIntervalQ : Int := 30000

/-- `config.ws.heartbeatTimeout` of the queued variant. -/
def heartbeatTimeoutQ : Int := 60000

/-- One evaluation of the queued variant's `heartbeatCheck` interval body for
a live clientState: `true` means `ws.terminate()` is called. -/
def heartbeatCheckQ (now : Int) (cs : CState) : Bool :=
  now - cs.lastHeartbeat > heartbeatTimeoutQ

/-- Connection-level events driving the queued server: transport accept,
an inbound frame, and transport close. -/
inductive SEvent
  | connect (cid : String) (now : Int)
  | frame (cid : String) (fr : Frame) (now : Int)
  | closeEv (cid : String)
deriving DecidableEq

/-- One event step of the queued server (`connection` setup, `message`
dispatch, `close` cleanup). A connect for an id already in use is a no-op,
mirroring uuid freshness. -/
def stepQ (verify : String → Option JwtPayload) (e : SEvent) (s : SState) :
    SState × List OutMsg :=
  match e with
  | .connect cid now =>
    if (s.clients cid).isSome then (s, [])
    else
      let fresh : CState :=
        { clientId := cid, userId := none, authenticated := false,
          lastHeartbeat := now, wsOpen := true, sendFails := false }
      ({ s with clients := mapUpdate s.clients cid (some fresh) },
       [.welcome cid])
  | .frame cid fr now => handleMessageQ verify now s cid fr
  | .closeEv cid => (handleCloseQ cid s, [])

/-- The server state before any connection. -/
def initQ : SState :=
  { clients := fun _ => none, userConnections := fun _ => none,
    mqConnected := true }

/-- Run the queued server over a list of events from a given state. -/
def runQFrom (verify : String → Option JwtPayload) (s : SState) :
    List SEvent → SState
  | [] => s
  | e :: evs => runQFrom verify (stepQ verify e s).1 evs

/-- Run the queued server over a list of events from the initial state. -/
def runQ (verify : String → Option JwtPayload) (evs : List SEvent) : SState :=
  runQFrom verify initQ evs

/-! ## Direct variant (`src/unnamed/part_003`) -/

/-- `WS_HEARTBEAT_INTERVAL` of the direct variant. -/
def WS_HEARTBEAT_INTERVAL : Int := 30000

/-- One evaluation of the direct variant's `heartbeatTimer` body: the first
component is whether `ws.terminate()` is called, the second is the frames
sent (a `ping` probe when the connection survives and the socket is open). -/
def heartbeatTick3 (now : Int) (cs : CState) : Bool × List OutMsg :=
  if now - cs.lastHeartbeat > 2 * WS_HEARTBEAT_INTERVAL then (true, [])
  else if cs.wsOpen then (false, [.pingMsg now]) else (false, [])

/-- The direct variant's `userConnections`: userId to `Set` of clientState
objects. The key type is `Option String` because `handleAuth` stores
`decoded.userId` unchecked, so a payload without `userId` yields the
`undefined` key. Object identity in the `Set` is modelled by `clientId`
(each connection owns exactly one clientState object). -/
def UC3 : Type := Option String → Option (List CState)

/-- Bucket `Set.add` of the direct variant (by clientState object identity). -/
def addToBucket3 (uc : UC3) (u : Option String) (cs : CState) : UC3 :=
  fun u' =>
    if u' = u then
      let l := (uc u).getD []
      some (if l.any (fun c => c.clientId = cs.clientId) then l else l ++ [cs])
    else uc u'

/-- `sendToUser(userId, data)` of the direct variant, applied to the user's
bucket: `0` for a missing or empty bucket, otherwise the number of
clientStates whose write succeeded (each failure is caught inside
`sendToClient`). -/
def sendToUser3 (conns : Option (List CState)) : Nat :=
  match conns with
  | none => 0
  | some l =>
    if l.isEmpty then 0
    else (l.filter sendToClient).length

/-- `handleAuth(clientState, message)` of the direct variant: no
`userId || sub` fallback and no missing-userId check; `decoded.userId` is
stored as-is and the clientState object is added to that bucket. -/
def handleAuth3 (verify : String → Option JwtPayload) (tok : Option String)
    (cs : CState) (uc : UC3) : CState × UC3 × List OutMsg :=
  if truthy tok = false then
    (cs, uc, [.authFailure "No authentication token provided"])
  else
    match verify (tok.getD "") with
    | none => (cs, uc, [.authFailure "Invalid authentication token"])
    | some decoded =>
      let userId := decoded.userId
      let cs' := { cs with userId := userId, authenticated := true }
      (cs', addToBucket3 uc userId cs', [.authSuccess userId])

/-- `handleDataRequest(clientState, message)` of the direct variant (the task
registration and the asynchronous batch pushes happen outside this
synchronous step). -/
def handleDataRequest3 (cs : CState) (uc : UC3) (rid : String) :
    CState × UC3 × List OutMsg :=
  if !cs.authenticated then
    (cs, uc, [.errorMsg (some rid) "Authentication required first"])
  else
    (cs, uc, [.requestAccepted rid])

/-- The `ws.on('message')` handler of the direct variant. Parsing and the
whole dispatch run inside one `try`; invalid JSON lands in the `catch`
before the `lastHeartbeat` refresh. The server has cases only for `auth`,
`pong` and `request_data`: every other type (including `ping`) falls to the
`default` case, which answers with an error frame. -/
def handleMessage3 (verify : String → Option JwtPayload) (now : Int)
    (cs : CState) (uc : UC3) (fr : Frame) : CState × UC3 × List OutMsg :=
  match fr with
  | .malformed => (cs, uc, [.errorMsg none "Invalid message format"])
  | .parsed m =>
    let cs := { cs with lastHeartbeat := now }
    match m with
    | .auth tok => handleAuth3 verify tok cs uc
    | .pong _ _ => (cs, uc, [])
    | .requestData rid => handleDataRequest3 cs uc rid
    | .ping _ => (cs, uc, [.errorMsg none "Unknown message type"])
    | .unknown _ => (cs, uc, [.errorMsg none "Unknown message type"])

/-! ## Claim C1: fan-out delivery count -/

/-- Claim C1: `sendToUser`/`_sendToUser` returns 0 for a user with no
registered connections; otherwise it attempts one write per registered
connection, failures being caught per-connection, and returns exactly the
number of connections whose write succeeded; for connections `{A, B}` with
A's write failing and B's succeeding the count is 1 (in both server
variants). -/
theorem spec_c1_sendToUser_delivered_count :
    (∀ s : SState, ∀ u : String,
      sendToUserQ s u = (bucketOf s u).countP (fun cid => writeOkQ s cid)) ∧
    (∀ s : SState, ∀ u : String, bucketOf s u = [] → sendToUserQ s u = 0) ∧
    (∀ conns : Option (List CState),
      sendToUser3 conns = (conns.getD []).countP (fun cs => sendToClient cs)) ∧
    (∀ a b : CState, a.wsOpen = true → a.sendFails = true →
      b.wsOpen = true → b.sendFails = false →
      sendToUser3 (some [a, b]) = 1) := by
  refine ⟨?_, ?_, ?_, ?_⟩
  · intro s u
    unfold sendToUserQ bucketOf writeOkQ
    match h : s.userConnections u with
    | none => simp
    | some l =>
      simp only [Option.getD_some, List.countP_eq_length_filter]
      by_cases hl : l.isEmpty
      · simp [hl, List.isEmpty_iff.mp hl]
      · simp [hl]
  · intro s u hb
    unfold sendToUserQ
    unfold bucketOf at hb
    match h : s.userConnections u with
    | none => simp
    | some l =>
      rw [h] at hb
      simp only [Option.getD_some] at hb
      subst hb
      simp
  · intro conns
    unfold sendToUser3
    match conns with
    | none => simp
    | some l =>
      simp only [Option.getD_some, List.countP_eq_length_filter]
      by_cases hl : l.isEmpty
      · simp [hl, List.isEmpty_iff.mp hl]
      · simp [hl]
  · intro a b ha1 ha2 hb1 hb2
    unfold sendToUser3 sendToClient
    simp [ha1, ha2, hb1, hb2]

/-- Witness for C1 at a concrete input: a user with two connections where
the first write fails and the second succeeds yields a delivered count
of 1. -/
theorem spec_c1_witness :
    sendToUser3 (some
      [{ clientId := "A", userId := some "u1", authenticated := true,
         lastHeartbeat := 0, wsOpen := true, sendFails := true },
       { clientId := "B", userId := some "u1", authenticated := true,
         lastHeartbeat := 0, wsOpen := true, sendFails := false }]) = 1 :=
  spec_c1_sendToUser_delivered_count.2.2.2
    { clientId := "A", userId := some "u1", authenticated := true,
      lastHeartbeat := 0, wsOpen := true, sendFails := true }
    { clientId := "B", userId := some "u1", authenticated := true,
      lastHeartbeat := 0, wsOpen := true, sendFails := false }
    rfl rfl rfl rfl

/-! ## Claim C5: heartbeat timeout window -/

/-- Claim C5: in both variants a heartbeat check terminates a connection
exactly when the elapsed time since its last liveness activity exceeds
twice the heartbeat interval (the queued variant's configured timeout is
that same 2x value), and a connection with traffic 1.5 intervals ago is
not terminated. -/
theorem spec_c5_heartbeat_timeout_window :
    (∀ (now : Int) (cs : CState),
      (heartbeatTick3 now cs).1 = true ↔
        now - cs.lastHeartbeat > 2 * WS_HEARTBEAT_INTERVAL) ∧
    (∀ (now : Int) (cs : CState),
      heartbeatCheckQ now cs = true ↔
        now - cs.lastHeartbeat > heartbeatTimeoutQ) ∧
    heartbeatTimeoutQ = 2 * heartbeatIntervalQ ∧
    (∀ (now : Int) (cs : CState), now - cs.lastHeartbeat = 45000 →
      (heartbeatTick3 now cs).1 = false ∧ heartbeatCheckQ now cs = false) := by
  refine ⟨?_, ?_, by decide, ?_⟩
  · intro now cs
    unfold heartbeatTick3
    by_cases h : now - cs.lastHeartbeat > 2 * WS_HEARTBEAT_INTERVAL
    · simp [h]
    · by_cases hw : cs.wsOpen <;> simp [h, hw]
  · intro now cs
    unfold heartbeatCheckQ
    exact decide_eq_true_iff
  · intro now cs h
    constructor
    · unfold heartbeatTick3
      rw [h]
      by_cases hw : cs.wsOpen <;> simp [hw, WS_HEARTBEAT_INTERVAL]
    · unfold heartbeatCheckQ
      rw [h]
      decide

/-- Witness for C5 at a concrete input: a connection whose last activity was
45000 ms ago (1.5 heartbeat intervals) survives both variants' checks. -/
theorem spec_c5_witness :
    (heartbeatTick3 45000
      { clientId := "c1", userId := none, authenticated := false,
        lastHeartbeat := 0, wsOpen := true, sendFails := false }).1 = false ∧
    heartbeatCheckQ 45000
      { clientId := "c1", userId := none, authenticated := false,
        lastHeartbeat := 0, wsOpen := true, sendFails := false } = false :=
  spec_c5_heartbeat_timeout_window.2.2.2 45000
    { clientId := "c1", userId := none, authenticated := false,
      lastHeartbeat := 0, wsOpen := true, sendFails := false }
    (by decide)

/-! ## Browser client (`src/unnamed/part_000`, class `WSClient`) -/

/-- One entry of `this.requestCallbacks`: the three callbacks are opaque, so
only their presence is tracked, together with the one-shot flag `once`
(`callbacks.once !== false`, i.e. default `true`). -/
structure RequestCallback where
  hasOnAccepted : Bool
  hasOnData : Bool
  hasOnError : Bool
  once : Bool
deriving DecidableEq

/-- Client-side state of `WSClient` relevant to the claims. -/
structure WSClientState where
  authenticated : Bool
  userId : Option String
  isConnecting : Bool
  reconnectAttempts : Nat
  authToken : Option String
  requestCallbacks : String → Option RequestCallback

/-- Server-to-client frames as the client parses them; for `data` only
`payload.requestId` is inspected by the dispatch (a missing `payload` or a
missing `requestId` are both `none`). -/
inductive SrvMsg
  | authSuccess (userId : String)
  | authFailure
  | srvPing (timestamp : Int)
  | requestAccepted (requestId : Option String)
  | dataMsg (payloadRequestId : Option String)
  | errorMsg (requestId : Option String)
  | unknown
deriving DecidableEq

/-- Point update of the client's callback map. -/
def cbUpdate (m : String → Option RequestCallback) (k : String)
    (v : Option RequestCallback) : String → Option RequestCallback :=
  fun k' => if k' = k then v else m k'

/-- `WSClient._handleMessage`: the correlator dispatch. For `data`, `onData`
is invoked when the entry exists and has one, and the entry is then removed
only if `once`; for `error`, `onError` is invoked likewise and the entry is
again removed only inside the `if (callback.once)` guard. The reply to a
server `ping` is a `pong` frame. -/
def clientHandleMessage (now : Int) (st : WSClientState) (m : SrvMsg) :
    WSClientState × List InMsg :=
  match m with
  | .authSuccess u => ({ st with authenticated := true, userId := some u }, [])
  | .authFailure => ({ st with authenticated := false }, [])
  | .srvPing ts => (st, [.pong now ts])
  | .requestAccepted _ => (st, [])
  | .dataMsg prid =>
    match prid with
    | some rid =>
      if rid.isEmpty then (st, [])
      else
        match st.requestCallbacks rid with
        | some cb =>
          if cb.hasOnData then
            (if cb.once then
              { st with requestCallbacks := cbUpdate st.requestCallbacks rid none }
             else st, [])
          else (st, [])
        | none => (st, [])
    | none => (st, [])
  | .errorMsg reqid =>
    match reqid with
    | some rid =>
      if rid.isEmpty then (st, [])
      else
        match st.requestCallbacks rid with
        | some cb =>
          if cb.hasOnError then
            (if cb.once then
              { st with requestCallbacks := cbUpdate st.requestCallbacks rid none }
             else st, [])
          else (st, [])
        | none => (st, [])
    | none => (st, [])
  | .unknown => (st, [])

/-- `WSClient._handleOpen`: clears `isConnecting`, resets the reconnect
attempt counter to 0, and re-authenticates when a token is held. -/
def clientHandleOpen (st : WSClientState) : WSClientState × List InMsg :=
  let st' := { st with isConnecting := false, reconnectAttempts := 0 }
  (st', if truthy st.authToken then [.auth st.authToken] else [])

/-- `WSClient.disconnect`: stops the heartbeat, clears every pending
correlator entry and drops the socket. -/
def clientDisconnect (st : WSClientState) : WSClientState :=
  { st with requestCallbacks := fun _ => none, authenticated := false }

/-- Default `options.reconnectInterval` (the demo app passes none). -/
def defaultReconnectInterval : ℚ := 3000

/-- `WSClient._reconnect`'s backoff delay:
`Math.min(30000, reconnectInterval * Math.pow(1.5, reconnectAttempts))`.
Exact in `ℚ`: for every exponent reached before the cap saturates, the
binary64 values `Math.pow(1.5, n)` and the product are exact, and beyond
saturation the `min` pins the value to 30000 either way. -/
def reconnectDelay (reconnectInterval : ℚ) (attempts : Nat) : ℚ :=
  min 30000 (reconnectInterval * (3 / 2) ^ attempts)

/-- `WSClient._reconnect`: returns the scheduled delay and the state after
the timer fires (`reconnectAttempts++`). -/
def clientReconnect (st : WSClientState) : ℚ × WSClientState :=
  (reconnectDelay defaultReconnectInterval st.reconnectAttempts,
   { st with reconnectAttempts := st.reconnectAttempts + 1 })

/-! ## Claim C3: one-shot entries are removed by data delivery -/

/-- Claim C3: after a `data` frame for a registered request id whose entry
has an `onData` callback, a one-shot entry is absent from the correlator and
a non-one-shot entry is still present (it persists unchanged). -/
theorem spec_c3_oneshot_data_removal (now : Int) (st : WSClientState)
    (rid : String) (cb : RequestCallback)
    (hrid : rid.isEmpty = false)
    (hcb : st.requestCallbacks rid = some cb)
    (hdata : cb.hasOnData = true) :
    (clientHandleMessage now st (.dataMsg (some rid))).1.requestCallbacks rid =
      (if cb.once then none else some cb) := by
  simp only [clientHandleMessage, hrid, Bool.false_eq_true, if_false, hcb,
    hdata, if_true]
  by_cases ho : cb.once
  · simp [ho, cbUpdate]
  · simp [ho, hcb]

/-- Witness for C3 at a concrete input: with a one-shot entry for request id
`req-1` holding an `onData` callback, the entry is gone after a `data`
frame for `req-1`. -/
theorem spec_c3_witness :
    (clientHandleMessage 0
      { authenticated := true, userId := some "u1", isConnecting := false,
        reconnectAttempts := 0, authToken := none,
        requestCallbacks := fun r =>
          if r = "req-1" then
            some { hasOnAccepted := true, hasOnData := true,
                   hasOnError := true, once := true }
          else none }
      (.dataMsg (some "req-1"))).1.requestCallbacks "req-1" = none := by
  have h := spec_c3_oneshot_data_removal 0
    { authenticated := true, userId := some "u1", isConnecting := false,
      reconnectAttempts := 0, authToken := none,
      requestCallbacks := fun r =>
        if r = "req-1" then
          some { hasOnAccepted := true, hasOnData := true,
                 hasOnError := true, once := true }
        else none }
    "req-1"
    { hasOnAccepted := true, hasOnData := true, hasOnError := true,
      once := true }
    (by decide) (by decide) (by decide)
  simpa using h

/-! ## Claim C4: error delivery and entry removal -/

/-- Claim C4 counterexample: an entry with `once = false` and an `onError`
callback is still present after an `error` frame for its request id, so
error delivery does not remove the entry regardless of the one-shot flag
(the removal sits inside the `if (callback.once)` guard). -/
theorem spec_c4_counterexample :
    (clientHandleMessage 0
      { authenticated := true, userId := some "u1", isConnecting := false,
        reconnectAttempts := 0, authToken := none,
        requestCallbacks := fun r =>
          if r = "req-1" then
            some { hasOnAccepted := true, hasOnData := true,
                   hasOnError := true, once := false }
          else none }
      (.errorMsg (some "req-1"))).1.requestCallbacks "req-1" =
      some { hasOnAccepted := true, hasOnData := true,
             hasOnError := true, once := false } := by
  decide

/-- Claim C4 amended: after an `error` frame for a registered request id
whose entry has an `onError` callback, the entry is removed exactly when its
one-shot flag is true; a non-one-shot entry persists until connection
teardown (`disconnect` clears every entry). -/
theorem spec_c4_error_removal_oneshot_only (now : Int) (st : WSClientState)
    (rid : String) (cb : RequestCallback)
    (hrid : rid.isEmpty = false)
    (hcb : st.requestCallbacks rid = some cb)
    (herr : cb.hasOnError = true) :
    (clientHandleMessage now st (.errorMsg (some rid))).1.requestCallbacks rid =
      (if cb.once then none else some cb) ∧
    (clientDisconnect st).requestCallbacks rid = none := by
  constructor
  · simp only [clientHandleMessage, hrid, Bool.false_eq_true, if_false, hcb,
      herr, if_true]
    by_cases ho : cb.once
    · simp [ho, cbUpdate]
    · simp [ho, hcb]
  · rfl

/-- Witness for the amended C4 at a concrete input: a one-shot entry with an
`onError` callback is removed by an `error` frame, and teardown clears a
persisting entry. -/
theorem spec_c4_witness :
    (clientHandleMessage 0
      { authenticated := true, userId := some "u1", isConnecting := false,
        reconnectAttempts := 0, authToken := none,
        requestCallbacks := fun r =>
          if r = "req-2" then
            some { hasOnAccepted := false, hasOnData := true,
                   hasOnError := true, once := true }
          else none }
      (.errorMsg (some "req-2"))).1.requestCallbacks "req-2" = none := by
  have h := spec_c4_error_removal_oneshot_only 0
    { authenticated := true, userId := some "u1", isConnecting := false,
      reconnectAttempts := 0, authToken := none,
      requestCallbacks := fun r =>
        if r = "req-2" then
          some { hasOnAccepted := false, hasOnData := true,
                 hasOnError := true, once := true }
        else none }
    "req-2"
    { hasOnAccepted := false, hasOnData := true, hasOnError := true,
      once := true }
    (by decide) (by decide) (by decide)
  simpa using h.1

/-! ## Claim C8: reconnect backoff -/

/-- Claim C8: with the default base of 3000 ms, growth factor 1.5 and cap
30000 ms, the scheduled backoff delay for attempt counter `n` is
`min 30000 (3000 * 1.5 ^ n)`; the sequence never exceeds the cap, is
non-decreasing, and is strictly increasing while below the cap; a
successful (re)connection resets the attempt counter to 0. -/
theorem spec_c8_reconnect_backoff :
    (∀ n : Nat, reconnectDelay 3000 n = min 30000 (3000 * (3 / 2 : ℚ) ^ n)) ∧
    (∀ n : Nat, reconnectDelay 3000 n ≤ 30000) ∧
    (∀ n : Nat, reconnectDelay 3000 n ≤ reconnectDelay 3000 (n + 1)) ∧
    (∀ n : Nat, reconnectDelay 3000 n < 30000 →
      reconnectDelay 3000 n < reconnectDelay 3000 (n + 1)) ∧
    (∀ st : WSClientState, (clientHandleOpen st).1.reconnectAttempts = 0) ∧
    (∀ st : WSClientState,
      (clientReconnect st).1 =
        reconnectDelay defaultReconnectInterval st.reconnectAttempts) := by
  have hpos : ∀ n : Nat, (0 : ℚ) < 3000 * (3 / 2) ^ n := by
    intro n
    positivity
  refine ⟨fun n => rfl, ?_, ?_, ?_, fun st => rfl, fun st => rfl⟩
  · intro n
    exact min_le_left _ _
  · intro n
    unfold reconnectDelay
    refine min_le_min le_rfl ?_
    rw [pow_succ, ← mul_assoc]
    nlinarith [hpos n]
  · intro n hlt
    have hx : 3000 * (3 / 2 : ℚ) ^ n < 30000 := by
      by_contra hge
      push_neg at hge
      have : reconnectDelay 3000 n = 30000 := by
        unfold reconnectDelay
        exact min_eq_left hge
      rw [this] at hlt
      exact lt_irrefl _ hlt
    have heq : reconnectDelay 3000 n = 3000 * (3 / 2 : ℚ) ^ n :=
      min_eq_right hx.le
    rw [heq]
    unfold reconnectDelay
    refine lt_min hx ?_
    rw [pow_succ, ← mul_assoc]
    nlinarith [hpos n]

/-- Witness for C8 at a concrete input: the first delay (attempt counter 0)
is below the cap and strictly smaller than the next one. -/
theorem spec_c8_witness :
    reconnectDelay 3000 0 < 30000 ∧
    reconnectDelay 3000 0 < reconnectDelay 3000 1 := by
  have h0 : reconnectDelay 3000 0 < 30000 := by
    unfold reconnectDelay
    rw [pow_zero, mul_one, min_eq_right (by norm_num)]
    norm_num
  exact ⟨h0, spec_c8_reconnect_backoff.2.2.2.1 0 h0⟩

/-! ## Concrete fixtures shared by counterexamples -/

/-- A concrete credential verifier: token `t1` belongs to user `u1` and
token `t2` to user `u2`. -/
def verifyC : String → Option JwtPayload :=
  fun t =>
    if t = "t1" then some { userId := some "u1", sub := none }
    else if t = "t2" then some { userId := some "u2", sub := none }
    else none

/-- A freshly connected, unauthenticated clientState with
`lastHeartbeat = 5`. -/
def csC : CState :=
  { clientId := "c1", userId := none, authenticated := false,
    lastHeartbeat := 5, wsOpen := true, sendFails := false }

/-- A queued-variant server state holding just the connection `c1`. -/
def sC : SState :=
  { clients := fun c => if c = "c1" then some csC else none,
    userConnections := fun _ => none, mqConnected := true }

/-! ## Claim C6: liveness refresh on inbound frames -/

/-- Claim C6 counterexample: a malformed (non-JSON) frame is answered before
the `lastHeartbeat` refresh, so processing it leaves the connection's
`lastHeartbeat` unchanged (5, not the current time 100) — contradicting the
claim that frames of any type, malformed ones alike, refresh it. -/
theorem spec_c6_counterexample :
    ((handleMessageQ verifyC 100 sC "c1" .malformed).1.clients "c1").map
        (fun cs => cs.lastHeartbeat) = some 5 ∧
    (5 : Int) ≠ 100 ∧
    ((handleMessage3 verifyC 100 csC (fun _ => none) .malformed).1.lastHeartbeat
      = 5) := by
  refine ⟨by decide, by decide, by decide⟩

/-- Claim C6 amended: every inbound frame that parses as JSON — `auth`,
`ping`, `pong`, `request_data` and unknown types alike — refreshes the
connection's `lastHeartbeat` to the current time, in both server variants;
malformed frames do not reach the refresh. -/
theorem spec_c6_parsed_refreshes_heartbeat
    (verify : String → Option JwtPayload) (now : Int) (s : SState)
    (cid : String) (cs : CState) (uc : UC3) (m : InMsg)
    (h : s.clients cid = some cs) (hk : cs.clientId = cid) :
    ((handleMessageQ verify now s cid (.parsed m)).1.clients cid).map
        (fun c => c.lastHeartbeat) = some now ∧
    (handleMessage3 verify now cs uc (.parsed m)).1.lastHeartbeat = now := by
  constructor
  · subst hk
    simp only [handleMessageQ, h]
    cases m with
    | auth tok =>
      simp only [handleAuthQ]
      by_cases h1 : truthy tok = false
      · simp [h1, mapUpdate]
      · simp only [h1, if_false, Bool.false_eq_true]
        match hv : verify (tok.getD "") with
        | none => simp [mapUpdate]
        | some decoded =>
          by_cases h2 : truthy (jsOr decoded.userId decoded.sub) = false
          · simp [h2, mapUpdate]
          · simp [h2, mapUpdate]
    | ping ts => simp [mapUpdate]
    | pong ts e => simp [mapUpdate]
    | requestData rid =>
      by_cases ha : cs.authenticated
      · by_cases hmq : s.mqConnected <;> simp [ha, hmq, mapUpdate]
      · simp [ha, mapUpdate]
    | unknown t => simp [mapUpdate]
  · cases m with
    | auth tok =>
      simp only [handleMessage3, handleAuth3]
      by_cases h1 : truthy tok = false
      · simp [h1]
      · simp only [h1, if_false, Bool.false_eq_true]
        match hv : verify (tok.getD "") with
        | none => simp
        | some decoded => simp
    | ping ts => simp [handleMessage3]
    | pong ts e => simp [handleMessage3]
    | requestData rid =>
      simp only [handleMessage3, handleDataRequest3]
      by_cases ha : cs.authenticated <;> simp [ha]
    | unknown t => simp [handleMessage3]

/-- Witness for the amended C6 at a concrete input: a `ping` frame at time
100 refreshes `lastHeartbeat` to 100 in both variants. -/
theorem spec_c6_witness :
    ((handleMessageQ verifyC 100 sC "c1" (.parsed (.ping 7))).1.clients
        "c1").map (fun c => c.lastHeartbeat) = some 100 ∧
    (handleMessage3 verifyC 100 csC (fun _ => none)
        (.parsed (.ping 7))).1.lastHeartbeat = 100 :=
  spec_c6_parsed_refreshes_heartbeat verifyC 100 sC "c1" csC (fun _ => none)
    (.ping 7) (by decide) (by decide)

/-! ## Claim C7: malformed frames and unknown types -/

/-- Claim C7 counterexample: in the queued variant an unknown `type` falls
into the logging-only `default` case, so the server sends no frame at all —
contradicting the claim that it responds with an `error` frame. -/
theorem spec_c7_counterexample :
    (handleMessageQ verifyC 100 sC "c1" (.parsed (.unknown "bogus"))).2
      = [] := by
  decide

/-- Claim C7 amended: a malformed frame is answered with an `error` frame in
both variants; an unknown `type` is answered with an `error` frame in the
direct variant but produces no response in the queued variant (it is only
logged); in every such case the connection is not closed (its clientState
survives) and the user-connections registry is unchanged. -/
theorem spec_c7_protocol_errors
    (verify : String → Option JwtPayload) (now : Int) (s : SState)
    (cid : String) (cs : CState) (uc : UC3) (t : String)
    (h : s.clients cid = some cs) (hk : cs.clientId = cid) :
    (handleMessageQ verify now s cid .malformed
      = (s, [.errorMsg none "Invalid JSON message"])) ∧
    ((handleMessageQ verify now s cid (.parsed (.unknown t))).2 = [] ∧
     (handleMessageQ verify now s cid
        (.parsed (.unknown t))).1.userConnections = s.userConnections ∧
     (handleMessageQ verify now s cid (.parsed (.unknown t))).1.clients cid
       = some { cs with lastHeartbeat := now }) ∧
    (handleMessage3 verify now cs uc .malformed
      = (cs, uc, [.errorMsg none "Invalid message format"])) ∧
    (handleMessage3 verify now cs uc (.parsed (.unknown t))
      = ({ cs with lastHeartbeat := now }, uc,
         [.errorMsg none "Unknown message type"])) := by
  refine ⟨?_, ⟨?_, ?_, ?_⟩, rfl, rfl⟩
  · simp [handleMessageQ, h]
  · simp [handleMessageQ, h]
  · simp [handleMessageQ, h]
  · subst hk
    simp [handleMessageQ, h, mapUpdate]

/-- Witness for the amended C7 at a concrete input. -/
theorem spec_c7_witness :
    (handleMessageQ verifyC 100 sC "c1" .malformed
      = (sC, [.errorMsg none "Invalid JSON message"])) ∧
    ((handleMessageQ verifyC 100 sC "c1" (.parsed (.unknown "nope"))).2 = [] ∧
     (handleMessageQ verifyC 100 sC "c1"
        (.parsed (.unknown "nope"))).1.userConnections = sC.userConnections ∧
     (handleMessageQ verifyC 100 sC "c1" (.parsed (.unknown "nope"))).1.clients
        "c1" = some { csC with lastHeartbeat := 100 }) ∧
    (handleMessage3 verifyC 100 csC (fun _ => none) .malformed
      = (csC, (fun _ => none),
         [.errorMsg none "Invalid message format"])) ∧
    (handleMessage3 verifyC 100 csC (fun _ => none) (.parsed (.unknown "nope"))
      = ({ csC with lastHeartbeat := 100 }, (fun _ => none),
         [.errorMsg none "Unknown message type"])) :=
  spec_c7_protocol_errors verifyC 100 sC "c1" csC (fun _ => none) "nope"
    (by decide) (by decide)

/-! ## Claim C10: verified token without a user id -/

/-- Claim C10: if an `auth` token passes JWT verification but the decoded
payload has neither `userId` nor `sub`, the queued variant answers
`auth_failure`, the connection's `authenticated` flag is unchanged (so it
stays `false`), and no entry is added to the user-connections registry. -/
theorem spec_c10_auth_without_userid
    (verify : String → Option JwtPayload) (now : Int) (s : SState)
    (cid : String) (cs : CState) (tok : String)
    (h : s.clients cid = some cs) (hk : cs.clientId = cid)
    (htok : tok.isEmpty = false)
    (hv : verify tok = some { userId := none, sub := none }) :
    (handleMessageQ verify now s cid (.parsed (.auth (some tok)))).2
      = [.authFailure "Invalid token: no user ID"] ∧
    (handleMessageQ verify now s cid
      (.parsed (.auth (some tok)))).1.userConnections = s.userConnections ∧
    (handleMessageQ verify now s cid (.parsed (.auth (some tok)))).1.clients
      cid = some { cs with lastHeartbeat := now } ∧
    ((handleMessageQ verify now s cid (.parsed (.auth (some tok)))).1.clients
      cid).map (fun c => c.authenticated) = some cs.authenticated := by
  subst hk
  have htr : truthy (some tok) = true := by
    simp [truthy, htok]
  refine ⟨?_, ?_, ?_, ?_⟩ <;>
    simp [handleMessageQ, h, handleAuthQ, htr, htok, hv, jsOr, truthy,
      mapUpdate]

/-- Witness for C10 at a concrete input: a verifier that accepts token `tk`
with an empty payload produces `auth_failure` and registers nothing. -/
theorem spec_c10_witness :
    (handleMessageQ (fun t => if t = "tk" then some ⟨none, none⟩ else none)
      100 sC "c1" (.parsed (.auth (some "tk")))).2
      = [.authFailure "Invalid token: no user ID"] ∧
    (handleMessageQ (fun t => if t = "tk" then some ⟨none, none⟩ else none)
      100 sC "c1" (.parsed (.auth (some "tk")))).1.userConnections
      = sC.userConnections ∧
    (handleMessageQ (fun t => if t = "tk" then some ⟨none, none⟩ else none)
      100 sC "c1" (.parsed (.auth (some "tk")))).1.clients "c1"
      = some { csC with lastHeartbeat := 100 } ∧
    ((handleMessageQ (fun t => if t = "tk" then some ⟨none, none⟩ else none)
      100 sC "c1" (.parsed (.auth (some "tk")))).1.clients "c1").map
        (fun c => c.authenticated) = some csC.authenticated :=
  spec_c10_auth_without_userid
    (fun t => if t = "tk" then some ⟨none, none⟩ else none)
    100 sC "c1" csC "tk" (by decide) (by decide) (by decide) (by decide)

/-! ## Claim C2: no connection id in two user buckets -/

/-- The user id under which a frame registers its connection: `some u`
exactly when the frame is an `auth` whose token verifies to a payload with a
truthy `userId || sub` (the branch of `_handleAuth` that mutates the
registry). -/
def authTarget (verify : String → Option JwtPayload) (fr : Frame) :
    Option String :=
  match fr with
  | .parsed (.auth tok) =>
    if truthy tok = false then none
    else
      match verify (tok.getD "") with
      | none => none
      | some decoded =>
        let userId := jsOr decoded.userId decoded.sub
        if truthy userId = false then none else some (userId.getD "")
  | _ => none

/-- A trace in which every connection only ever authenticates under a single
user id: any two successfully authenticating frames of the same connection
target the same user. -/
def SingleUserTrace (verify : String → Option JwtPayload)
    (evs : List SEvent) : Prop :=
  ∀ cid fr1 n1 fr2 n2 u1 u2,
    SEvent.frame cid fr1 n1 ∈ evs → SEvent.frame cid fr2 n2 ∈ evs →
    authTarget verify fr1 = some u1 → authTarget verify fr2 = some u2 →
    u1 = u2

/-- Every clientState of `s` sits in the `clients` map under its own
`clientId` (true of every reachable server state). -/
def WellKeyed (s : SState) : Prop :=
  ∀ cid cs, s.clients cid = some cs → cs.clientId = cid

/-- Inductive invariant for the registry: every bucket membership is
justified by an authenticating frame of that connection already in the
trace. -/
def JustifiedBuckets (verify : String → Option JwtPayload) (s : SState)
    (tr : List SEvent) : Prop :=
  ∀ u cid, cid ∈ bucketOf s u →
    ∃ fr n, SEvent.frame cid fr n ∈ tr ∧ authTarget verify fr = some u

/-- A point update whose value is keyed correctly preserves `WellKeyed`-ness
of a clients map. -/
theorem mapUpdate_wellKeyed {m : String → Option CState} {k : String}
    {v : Option CState}
    (hK : ∀ c cs, m c = some cs → cs.clientId = c)
    (hv : ∀ cs, v = some cs → cs.clientId = k) :
    ∀ c cs, mapUpdate m k v c = some cs → cs.clientId = c := by
  intro c cs h
  unfold mapUpdate at h
  split at h
  next he => rw [he]; exact hv cs h
  next he => exact hK c cs h
/-- Membership in a bucket after `addToBucket` comes from the old bucket or
is the added pair. -/
theorem mem_addToBucket {uc : String → Option (List String)}
    {u cid u' c : String}
    (h : c ∈ ((addToBucket uc u cid) u').getD []) :
    c ∈ (uc u').getD [] ∨ (c = cid ∧ u' = u) := by
  unfold addToBucket at h
  by_cases he : u' = u
  · subst he
    rw [if_pos rfl] at h
    simp only [Option.getD_some] at h
    split at h
    · exact Or.inl h
    · rcases List.mem_append.mp h with h | h
      · exact Or.inl h
      · exact Or.inr ⟨List.mem_singleton.mp h, rfl⟩
  · rw [if_neg he] at h
    exact Or.inl h

/-- The dispatch of `_handleMessage` either leaves the user-connections
registry untouched, or — on a successful `auth` — adds the connection under
the user id its token verifies to. -/
theorem handleMessageQ_buckets (verify : String → Option JwtPayload)
    (now : Int) (s : SState) (cid : String) (fr : Frame) :
    (handleMessageQ verify now s cid fr).1.userConnections
      = s.userConnections ∨
    ∃ u cs0, s.clients cid = some cs0 ∧ authTarget verify fr = some u ∧
      (handleMessageQ verify now s cid fr).1.userConnections
        = addToBucket s.userConnections u cs0.clientId := by
  unfold handleMessageQ
  split
  · exact Or.inl rfl
  next cs0 heq =>
    match fr with
    | .malformed => exact Or.inl rfl
    | .parsed m =>
      match m with
      | .ping ts => exact Or.inl rfl
      | .pong ts e => exact Or.inl rfl
      | .unknown t => exact Or.inl rfl
      | .requestData rid =>
        dsimp only
        split
        · exact Or.inl rfl
        · split
          · exact Or.inl rfl
          · exact Or.inl rfl
      | .auth tok =>
        dsimp only
        unfold handleAuthQ
        split
        · exact Or.inl rfl
        next h1 =>
          split
          · exact Or.inl rfl
          next decoded hv =>
            dsimp only
            split
            · exact Or.inl rfl
            next h2 =>
              refine Or.inr ⟨(jsOr decoded.userId decoded.sub).getD "", cs0,
                heq, ?_, rfl⟩
              simp only [authTarget]
              rw [if_neg h1, hv]
              dsimp only
              rw [if_neg h2]

/-- The dispatch of `_handleMessage` preserves `WellKeyed`-ness: it only
ever rewrites the clientState stored under its own id. -/
theorem handleMessageQ_wellKeyed (verify : String → Option JwtPayload)
    (now : Int) (s : SState) (cid : String) (fr : Frame)
    (hK : WellKeyed s) : WellKeyed (handleMessageQ verify now s cid fr).1 := by
  intro c cs h
  unfold handleMessageQ at h
  split at h
  · exact hK c cs h
  next cs0 heq =>
    have hK1 : ∀ c' cs', mapUpdate s.clients
        ({ cs0 with lastHeartbeat := now }).clientId
        (some { cs0 with lastHeartbeat := now }) c' = some cs' →
        cs'.clientId = c' := by
      refine mapUpdate_wellKeyed hK ?_
      intro cs' h'
      cases h'
      rfl
    match fr, h with
    | .malformed, h => exact hK c cs h
    | .parsed m, h =>
      match m, h with
      | .ping ts, h => exact hK1 c cs h
      | .pong ts e, h => exact hK1 c cs h
      | .unknown t, h => exact hK1 c cs h
      | .requestData rid, h =>
        dsimp only at h
        split at h
        · exact hK1 c cs h
        · split at h
          · exact hK1 c cs h
          · exact hK1 c cs h
      | .auth tok, h =>
        dsimp only at h
        unfold handleAuthQ at h
        split at h
        · exact hK1 c cs h
        · split at h
          · exact hK1 c cs h
          next decoded hv =>
            dsimp only at h
            split at h
            · exact hK1 c cs h
            · refine mapUpdate_wellKeyed hK1 ?_ c cs h
              intro cs' h'
              cases h'
              rfl

/-- Membership in a bucket after the close cleanup implies membership
before. -/
theorem mem_bucket_handleCloseQ {cid : String} {s : SState} {u c : String}
    (h : c ∈ bucketOf (handleCloseQ cid s) u) : c ∈ bucketOf s u := by
  unfold bucketOf
  unfold handleCloseQ bucketOf at h
  split at h
  · exact h
  next cs heq =>
    dsimp only at h
    split at h
    next ht =>
      split at h
      next l hb =>
        unfold mapUpdate at h
        dsimp only at h
        by_cases hu : u = cs.userId.getD ""
        · rw [if_pos hu] at h
          by_cases hl : (l.erase cid).isEmpty = true
          · rw [if_pos hl] at h
            simp at h
          · rw [if_neg hl] at h
            simp only [Option.getD_some] at h
            rw [hu, hb]
            exact List.mem_of_mem_erase h
        · rw [if_neg hu] at h
          exact h
      next hb => exact h
    next ht => exact h

/-- `handleCloseQ` preserves `WellKeyed`-ness. -/
theorem handleCloseQ_wellKeyed (cid : String) (s : SState)
    (hK : WellKeyed s) : WellKeyed (handleCloseQ cid s) := by
  intro c cs' h
  unfold handleCloseQ at h
  split at h
  · exact hK c cs' h
  next cs heq =>
    dsimp only at h
    unfold mapUpdate at h
    split at h
    next he => cases h
    next he => exact hK c cs' h

/-- Every step of the queued server preserves `WellKeyed`-ness and the
bucket-justification invariant, extending the trace by the step's event. -/
theorem stepQ_justified (verify : String → Option JwtPayload) (e : SEvent)
    (s : SState) (tr : List SEvent)
    (hB : JustifiedBuckets verify s tr) (hK : WellKeyed s) :
    JustifiedBuckets verify (stepQ verify e s).1 (tr ++ [e]) ∧
      WellKeyed (stepQ verify e s).1 := by
  have lift : ∀ u cid, (∃ fr n, SEvent.frame cid fr n ∈ tr ∧
      authTarget verify fr = some u) →
      ∃ fr n, SEvent.frame cid fr n ∈ tr ++ [e] ∧
        authTarget verify fr = some u := by
    intro u cid h
    obtain ⟨fr, n, hm, ha⟩ := h
    exact ⟨fr, n, List.mem_append_left _ hm, ha⟩
  match e with
  | .connect cid now =>
    constructor
    · intro u c h
      unfold bucketOf at h
      simp only [stepQ] at h
      split at h
      · exact lift u c (hB u c h)
      · exact lift u c (hB u c h)
    · intro c cs h
      simp only [stepQ] at h
      split at h
      · exact hK c cs h
      · dsimp only at h
        refine mapUpdate_wellKeyed hK ?_ c cs h
        intro cs' h'
        cases h'
        rfl
  | .closeEv cid =>
    constructor
    · intro u c h
      simp only [stepQ] at h
      exact lift u c (hB u c (mem_bucket_handleCloseQ h))
    · intro c cs h
      simp only [stepQ] at h
      exact handleCloseQ_wellKeyed cid s hK c cs h
  | .frame cid fr now =>
    constructor
    · intro u c h
      unfold bucketOf at h
      simp only [stepQ] at h
      rcases handleMessageQ_buckets verify now s cid fr with heq |
        ⟨u0, cs0, hcs, hat, heq⟩
      · rw [heq] at h
        exact lift u c (hB u c h)
      · rw [heq] at h
        rcases mem_addToBucket h with h' | ⟨hc1, hc2⟩
        · exact lift u c (hB u c h')
        · refine ⟨fr, now, ?_, ?_⟩
          · rw [hc1, hK cid cs0 hcs]
            exact List.mem_append_right _ (List.mem_singleton.mpr rfl)
          · rw [hat, hc2]
    · intro c cs h
      simp only [stepQ] at h
      exact handleMessageQ_wellKeyed verify now s cid fr hK c cs h
/-- Running the queued server preserves both invariants along the trace. -/
theorem runQFrom_justified (verify : String → Option JwtPayload) :
    ∀ (evs : List SEvent) (s : SState) (tr : List SEvent),
      JustifiedBuckets verify s tr → WellKeyed s →
      JustifiedBuckets verify (runQFrom verify s evs) (tr ++ evs) ∧
        WellKeyed (runQFrom verify s evs)
  | [], s, tr, hB, hK => by
    rw [List.append_nil]
    exact ⟨hB, hK⟩
  | e :: evs, s, tr, hB, hK => by
    obtain ⟨hB1, hK1⟩ := stepQ_justified verify e s tr hB hK
    have h2 := runQFrom_justified verify evs (stepQ verify e s).1
      (tr ++ [e]) hB1 hK1
    have heq : (tr ++ [e]) ++ evs = tr ++ (e :: evs) := by simp
    rw [heq] at h2
    exact h2

/-- Claim C2 counterexample: the connection `c1` authenticates first with a
token of user `u1`, then with a token of user `u2`; `_handleAuth` adds it to
the second bucket without removing it from the first, so afterwards `c1`
sits in the buckets of both `u1` and `u2` simultaneously. -/
theorem spec_c2_counterexample :
    "c1" ∈ bucketOf (runQ verifyC
      [.connect "c1" 0,
       .frame "c1" (.parsed (.auth (some "t1"))) 1,
       .frame "c1" (.parsed (.auth (some "t2"))) 2]) "u1" ∧
    "c1" ∈ bucketOf (runQ verifyC
      [.connect "c1" 0,
       .frame "c1" (.parsed (.auth (some "t1"))) 1,
       .frame "c1" (.parsed (.auth (some "t2"))) 2]) "u2" ∧
    ("u1" : String) ≠ "u2" := by
  refine ⟨by decide, by decide, by decide⟩

/-- Claim C2 amended: over every event sequence in which each connection
only ever authenticates with tokens mapping to a single user id, the
registry never holds the same connection id in two distinct user buckets; a
connection re-authenticating under a different user id is however left in
both buckets (see the counterexample), so the claim's multi-user scenario
had to be excluded. -/
theorem spec_c2_registry_no_double_bucket
    (verify : String → Option JwtPayload) (evs : List SEvent)
    (hS : SingleUserTrace verify evs) :
    ∀ u1 u2 cid, cid ∈ bucketOf (runQ verify evs) u1 →
      cid ∈ bucketOf (runQ verify evs) u2 → u1 = u2 := by
  have h0B : JustifiedBuckets verify initQ [] := by
    intro u cid h
    simp [bucketOf, initQ] at h
  have h0K : WellKeyed initQ := by
    intro cid cs h
    simp [initQ] at h
  have hJ := runQFrom_justified verify evs initQ [] h0B h0K
  rw [List.nil_append] at hJ
  intro u1 u2 cid h1 h2
  obtain ⟨fr1, n1, hm1, ha1⟩ := hJ.1 u1 cid h1
  obtain ⟨fr2, n2, hm2, ha2⟩ := hJ.1 u2 cid h2
  exact hS cid fr1 n1 fr2 n2 u1 u2 hm1 hm2 ha1 ha2

/-- Witness for the amended C2 at a concrete input: over a trace whose only
authentication maps `c1` to `u1` (a single-user trace), the theorem yields
that the two buckets holding `c1` coincide. -/
theorem spec_c2_witness : ("u1" : String) = "u1" := by
  have hS : SingleUserTrace verifyC
      [.connect "c1" 0, .frame "c1" (.parsed (.auth (some "t1"))) 1] := by
    intro cid fr1 n1 fr2 n2 u1 u2 h1 h2 ha1 ha2
    simp only [List.mem_cons, List.not_mem_nil, or_false] at h1 h2
    rcases h1 with h1 | h1
    · exact absurd h1 (by simp)
    · rcases h2 with h2 | h2
      · exact absurd h2 (by simp)
      · obtain ⟨hc1, hf1, hn1⟩ := by simpa using h1
        obtain ⟨hc2, hf2, hn2⟩ := by simpa using h2
        subst hf1
        subst hf2
        have hval : authTarget verifyC (.parsed (.auth (some "t1")))
            = some "u1" := by decide
        rw [hval] at ha1 ha2
        rw [← Option.some.inj ha1, ← Option.some.inj ha2]
  exact spec_c2_registry_no_double_bucket verifyC
    [.connect "c1" 0, .frame "c1" (.parsed (.auth (some "t1"))) 1] hS
    "u1" "u1" "c1" (by decide) (by decide)

/-! ## Claim C9: cumulative batch progress -/

/-- One `data` result batch as built by `_sendDataInBatches`
(`src/unnamed/part_002`). -/
structure Batch where
  batchNumber : Nat
  status : String
  requestId : String
  totalItems : Nat
  processedItems : Nat
  progress : Nat
  isFinal : Bool
  results : List String
deriving DecidableEq

/-- `Math.round(processedItems / totalItems * 100)` over the naturals
(`round x = floor (x + 1/2)`); the binary64 quotient can differ from the
exact one by an ulp, which no claim depends on. -/
def jsRound100 (p t : Nat) : Nat := (200 * p + t) / (2 * t)

/-- The recursive `sendNextBatch` closure of `_sendDataInBatches`: `rng k`
is the draw `Math.floor(Math.random() * 10) + 1` (always at least 1) for the
`k`-th batch; each batch takes `min(remaining, draw)` items, emits the
cumulative counters, and recurses while items remain. The `batchSize = 0`
early exit is unreachable for draws that are at least 1 and only serves
termination of the embedding. -/
def sendNextBatch (rng : Nat → Nat) (requestId : String) (items : List String)
    (total processed batchNumber : Nat) : List Batch :=
  let batchSize := min (total - processed) (rng batchNumber)
  let processed2 := processed + batchSize
  let b : Batch :=
    { batchNumber := batchNumber + 1,
      status := if total ≤ processed2 then "completed" else "processing",
      requestId := requestId,
      totalItems := total,
      processedItems := processed2,
      progress := jsRound100 processed2 total,
      isFinal := total ≤ processed2,
      results := (items.drop processed).take batchSize }
  if _h : processed2 < total then
    if _h2 : 0 < batchSize then
      b :: sendNextBatch rng requestId items total processed2 (batchNumber + 1)
    else [b]
  else [b]
termination_by total - processed
decreasing_by omega

/-- `_sendDataInBatches`: the zero-items early return emits a single
completion object (which in the source has no `batchNumber`, `progress` or
`isFinal` fields; the absent flag reads as falsy and is modelled `false`).
`_processJsonFile` never reaches this function with an empty dataset — it
reports an error instead — so the claims quantify over nonempty `items`. -/
def sendDataInBatches (rng : Nat → Nat) (requestId : String)
    (items : List String) : List Batch :=
  let total := items.length
  if total = 0 then
    [{ batchNumber := 0, status := "completed", requestId := requestId,
       totalItems := 0, processedItems := 0, progress := 0, isFinal := false,
       results := [] }]
  else sendNextBatch rng requestId items total 0 0

/-- Invariant package for `sendNextBatch`, by induction on an upper bound of
the remaining item count: the emitted batches are nonempty, their `results`
concatenate to the unprocessed suffix, every batch carries the dataset size
and a cumulative counter bounded by it, `isFinal` holds exactly at the full
count, the last batch is final with the full count, all earlier batches are
non-final, and consecutive counters grow by exactly the batch size. -/
theorem sendNextBatch_spec (rng : Nat → Nat) (rid : String)
    (items : List String) (hrng : ∀ k, 1 ≤ rng k) :
    ∀ fuel processed bn, items.length - processed ≤ fuel →
      processed < items.length →
      sendNextBatch rng rid items items.length processed bn ≠ [] ∧
      ((sendNextBatch rng rid items items.length processed bn).map
        (fun b => b.results)).join = items.drop processed ∧
      (∀ b ∈ sendNextBatch rng rid items items.length processed bn,
        b.totalItems = items.length ∧ b.processedItems ≤ items.length ∧
        (b.isFinal = true ↔ b.processedItems = items.length) ∧
        0 < b.results.length) ∧
      (∃ bl, (sendNextBatch rng rid items items.length processed bn).getLast?
        = some bl ∧ bl.processedItems = items.length ∧ bl.isFinal = true) ∧
      (∀ b ∈ (sendNextBatch rng rid items items.length processed
        bn).dropLast, b.isFinal = false) ∧
      (∀ b0 ∈ (sendNextBatch rng rid items items.length processed bn).head?,
        b0.processedItems = processed + b0.results.length) ∧
      (sendNextBatch rng rid items items.length processed bn).Chain'
        (fun b1 b2 => b2.processedItems = b1.processedItems +
          b2.results.length) := by
  intro fuel
  induction fuel with
  | zero =>
    intro processed bn h1 h2
    omega
  | succ k ih =>
    intro processed bn hfuel hlt
    have hbs1 : 0 < min (items.length - processed) (rng bn) := by
      have := hrng bn
      omega
    have hbsle : min (items.length - processed) (rng bn)
        ≤ items.length - processed := min_le_left _ _
    have hreslen : ((items.drop processed).take
        (min (items.length - processed) (rng bn))).length
        = min (items.length - processed) (rng bn) := by
      rw [List.length_take, List.length_drop]
      omega
    have hjoin : (items.drop processed).take
          (min (items.length - processed) (rng bn)) ++
        items.drop (processed + min (items.length - processed) (rng bn))
        = items.drop processed := by
      have h1 : items.drop (processed + min (items.length - processed)
          (rng bn)) = (items.drop processed).drop
            (min (items.length - processed) (rng bn)) := by
        rw [List.drop_drop]
      rw [h1]
      exact List.take_append_drop _ _
    rw [sendNextBatch]
    by_cases hrec : processed + min (items.length - processed) (rng bn)
        < items.length
    · rw [dif_pos hrec, dif_pos hbs1]
      obtain ⟨ih1, ih2, ih3, ih4, ih5, ih6, ih7⟩ :=
        ih (processed + min (items.length - processed) (rng bn)) (bn + 1)
          (by omega) hrec
      refine ⟨List.cons_ne_nil _ _, ?_, ?_, ?_, ?_, ?_, ?_⟩
      · simp only [List.map_cons, List.join_cons, ih2]
        exact hjoin
      · intro b hb
        rcases List.mem_cons.mp hb with hb | hb
        · subst hb
          dsimp only
          refine ⟨rfl, by omega, ?_, ?_⟩
          · simp only [decide_eq_true_eq]
            omega
          · rw [hreslen]
            omega
        · exact ih3 b hb
      · obtain ⟨bl, hbl, hbl2, hbl3⟩ := ih4
        refine ⟨bl, ?_, hbl2, hbl3⟩
        match hl : sendNextBatch rng rid items items.length
            (processed + min (items.length - processed) (rng bn)) (bn + 1),
            ih1 with
        | b2 :: t, _ =>
          rw [List.getLast?_cons_cons]
          rw [hl] at hbl
          exact hbl
      · intro b hb
        match hl : sendNextBatch rng rid items items.length
            (processed + min (items.length - processed) (rng bn)) (bn + 1),
            ih1 with
        | b2 :: t, _ =>
          rw [hl, List.dropLast_cons₂] at hb
          rcases List.mem_cons.mp hb with hb | hb
          · subst hb
            dsimp only
            simp only [decide_eq_false_iff_not]
            omega
          · refine ih5 b ?_
            rw [hl]
            exact hb
      · intro b0 hb0
        simp only [List.head?_cons, Option.mem_def, Option.some.injEq] at hb0
        subst hb0
        dsimp only
        rw [hreslen]
      · rw [List.chain'_cons']
        refine ⟨?_, ih7⟩
        intro y hy
        have h6 := ih6 y hy
        rw [h6]
    · rw [dif_neg hrec]
      have hfull : processed + min (items.length - processed) (rng bn)
          = items.length := by omega
      refine ⟨List.cons_ne_nil _ _, ?_, ?_, ?_, ?_, ?_, ?_⟩
      · simp only [List.map_cons, List.map_nil, List.join_cons,
          List.join_nil, List.append_nil]
        have hmin : min (items.length - processed) (rng bn)
            = items.length - processed := by omega
        rw [hmin]
        refine List.take_of_length_le ?_
        rw [List.length_drop]
      · intro b hb
        rcases List.mem_cons.mp hb with hb | hb
        · subst hb
          dsimp only
          refine ⟨rfl, by omega, ?_, ?_⟩
          · simp only [decide_eq_true_eq]
            omega
          · rw [hreslen]
            omega
        · cases hb
      · refine ⟨_, rfl, ?_, ?_⟩
        · show processed + min (items.length - processed) (rng bn)
            = items.length
          exact hfull
        · show decide (items.length ≤ processed +
            min (items.length - processed) (rng bn)) = true
          simp only [decide_eq_true_eq]
          omega
      · intro b hb
        cases hb
      · intro b0 hb0
        simp only [List.head?_cons, Option.mem_def, Option.some.injEq] at hb0
        subst hb0
        dsimp only
        rw [hreslen]
      · exact List.chain'_singleton _

/-- The queued variant's `processTask` result payload
(`src/system-with-MessageQ/backend/src/task-processor.js`): its
`data.results` counters are two independent draws of
`Math.floor(Math.random() * 100)` and the object carries no `isFinal` field
(the absent field is recorded by `hasIsFinal = false`). -/
structure QTaskResult where
  status : String
  requestId : String
  totalItems : Nat
  processedItems : Nat
  hasIsFinal : Bool
deriving DecidableEq

/-- The single result `processTask` of the queued variant emits, as a
function of its two counter draws. -/
def processTaskQResult (requestId : String) (randTotal randProcessed : Nat) :
    QTaskResult :=
  { status := "completed", requestId := requestId, totalItems := randTotal,
    processedItems := randProcessed, hasIsFinal := false }

/-- Claim C9 counterexample: the queued variant's task processor emits a
single result whose `totalItems` and `processedItems` are independent random
draws — here the possible draws 50 and 3 — so its `processedItems` does not
equal `totalItems`, and the result carries no `isFinal` flag at all; the
claim fails for tasks completed by this processor. -/
theorem spec_c9_counterexample :
    (processTaskQResult "req-1" 50 3).processedItems
      ≠ (processTaskQResult "req-1" 50 3).totalItems ∧
    (processTaskQResult "req-1" 50 3).hasIsFinal = false := by
  decide

/-- Claim C9 amended (restricted to the batching processor of
`src/unnamed/part_002`, the only one that emits progress batches): for a
nonempty dataset and per-batch draws of at least one item, the emitted
batches concatenate exactly to the dataset, every batch carries
`totalItems` and a cumulative `processedItems` bounded by it which grows by
exactly the batch's size, `isFinal` holds exactly at the full count, the
terminal batch is the only final one, and its `processedItems` equals
`totalItems`. -/
theorem spec_c9_batch_progress (rng : Nat → Nat) (rid : String)
    (items : List String) (hne : items ≠ []) (hrng : ∀ k, 1 ≤ rng k) :
    sendDataInBatches rng rid items ≠ [] ∧
    ((sendDataInBatches rng rid items).map (fun b => b.results)).join
      = items ∧
    (∀ b ∈ sendDataInBatches rng rid items,
      b.totalItems = items.length ∧ b.processedItems ≤ items.length ∧
      (b.isFinal = true ↔ b.processedItems = items.length)) ∧
    (∃ bl, (sendDataInBatches rng rid items).getLast? = some bl ∧
      bl.isFinal = true ∧ bl.processedItems = items.length) ∧
    (∀ b ∈ (sendDataInBatches rng rid items).dropLast, b.isFinal = false) ∧
    (∀ b0 ∈ (sendDataInBatches rng rid items).head?,
      b0.processedItems = b0.results.length) ∧
    (sendDataInBatches rng rid items).Chain'
      (fun b1 b2 => b2.processedItems = b1.processedItems +
        b2.results.length) := by
  have h0 : items.length ≠ 0 := by
    intro h
    exact hne (List.length_eq_zero.mp h)
  have hspec := sendNextBatch_spec rng rid items hrng items.length 0 0
    (by omega) (by omega)
  have heq : sendDataInBatches rng rid items
      = sendNextBatch rng rid items items.length 0 0 := by
    unfold sendDataInBatches
    rw [if_neg h0]
  rw [heq]
  obtain ⟨h1, h2, h3, h4, h5, h6, h7⟩ := hspec
  refine ⟨h1, ?_, ?_, ?_, h5, ?_, h7⟩
  · rw [h2]
    exact List.drop_zero items
  · intro b hb
    obtain ⟨ha, hb', hc, _⟩ := h3 b hb
    exact ⟨ha, hb', hc⟩
  · obtain ⟨bl, hb1, hb2, hb3⟩ := h4
    exact ⟨bl, hb1, hb3, hb2⟩
  · intro b0 hb0
    have h := h6 b0 hb0
    simpa using h

/-- Witness for the amended C9 at a concrete input: three items delivered
in batches of up to two end in a final batch whose cumulative count is the
dataset size. -/
theorem spec_c9_witness :
    ∃ bl, (sendDataInBatches (fun _ => 2) "req-1" ["a", "b", "c"]).getLast?
      = some bl ∧ bl.isFinal = true ∧ bl.processedItems = 3 := by
  have h := spec_c9_batch_progress (fun _ => 2) "req-1" ["a", "b", "c"]
    (by simp) (fun k => by norm_num)
  simpa using h.2.2.2.1
